import Mathlib

/-
Verification of scripts/make_errorcodes.py.

The script regenerates the errorcodes module: it reads the target file up
to a sentinel line, fetches and parses the PostgreSQL errcodes.txt document
for a fixed sequence of versions, merges the per-version results into two
registries (classes, errors), and appends a deterministic sorted block of
generated declarations.

Shallow embedding conventions:
- A fetched document is modelled as the list of its decoded text lines
  (iteration of the HTTP response body splits on newlines, so a line
  carries no interior newline; the regex matchers below nevertheless model
  the newline-sensitivity of the Python patterns faithfully).
- Python dicts are modelled as association lists in insertion order:
  setting an existing key replaces the value in place, setting a fresh key
  appends at the end.  This reproduces dict item-iteration order exactly.
- Python exceptions are modelled with Except: ValueError on an unexpected
  line, UnboundLocalError when the class_ local is read before assignment,
  ValueError when the sentinel is missing.
- sorted(...) is modelled by insertion sort under the lexicographic order
  on (key, value) pairs of strings, which is a total order, hence agrees
  extensionally with any Python sort.
-/

deriving instance DecidableEq for Except

namespace MakeErrorcodes

/-! ### Python string primitives (ASCII semantics) -/

/-- Whitespace characters recognised by the Python str.strip / regex \s
for ASCII input (the documents are decoded with the ascii codec). -/
def pyWS (c : Char) : Bool :=
  c = ' ' || c = '\t' || c = '\n' || c = '\r' || c = '\x0b' || c = '\x0c'

/-- Python str.upper on ASCII text: per-character upcasing. -/
def pyUpper (s : String) : String := ⟨s.data.map Char.toUpper⟩

/-- Leading and trailing whitespace removal on a character list. -/
def pyStripList (cs : List Char) : List Char :=
  ((cs.dropWhile pyWS).reverse.dropWhile pyWS).reverse

/-- Python str.strip() with no argument. -/
def pyStrip (s : String) : String := ⟨pyStripList s.data⟩

/-- Python str.startswith. -/
def pyStartsWith (s pre : String) : Bool := pre.data.isPrefixOf s.data

/-- Python str.split(sep) for a nonempty separator, on character lists.
The Nat argument is recursion fuel, instantiated with the list length
(each step consumes at least one character, so the fuel never runs out). -/
def pySplitAux (sep : List Char) : List Char → Nat → List (List Char)
  | cs, 0 => [cs]
  | [], _ + 1 => [[]]
  | c :: rest, fuel + 1 =>
    if sep.isPrefixOf (c :: rest) then
      [] :: pySplitAux sep (rest.drop (sep.length - 1)) fuel
    else
      match pySplitAux sep rest fuel with
      | [] => [[c]]
      | p :: ps => (c :: p) :: ps

/-- Python str.split(sep). -/
def pySplit (s sep : String) : List String :=
  (pySplitAux sep.data s.data s.data.length).map fun l => ⟨l⟩

/-- Python str.replace(old, new) for a nonempty old, on character lists,
with recursion fuel as in pySplitAux. -/
def pyReplaceAux (old new : List Char) : List Char → Nat → List Char
  | cs, 0 => cs
  | [], _ + 1 => []
  | c :: rest, fuel + 1 =>
    if old.isPrefixOf (c :: rest) then
      new ++ pyReplaceAux old new (rest.drop (old.length - 1)) fuel
    else
      c :: pyReplaceAux old new rest fuel

/-- Python str.replace(old, new). -/
def pyReplace (s old new : String) : String :=
  ⟨pyReplaceAux old.data new.data s.data s.data.length⟩

/-- Joins string pieces with a separator (Python sep.join). -/
def joinWith (sep : String) : List String → String
  | [] => ""
  | [s] => s
  | s :: rest => s ++ sep ++ joinWith sep rest

/-! ### Lexicographic order on strings, as Python compares them
(by code point).  Defined on character lists so every comparison is
computable by structural recursion. -/

/-- Strict lexicographic order on character lists by code point. -/
def listLt : List Char → List Char → Bool
  | [], [] => false
  | [], _ :: _ => true
  | _ :: _, [] => false
  | a :: as, b :: bs => a.toNat < b.toNat || (a = b && listLt as bs)

/-- Reflexive lexicographic order on character lists by code point. -/
def listLe : List Char → List Char → Bool
  | [], _ => true
  | _ :: _, [] => false
  | a :: as, b :: bs => a.toNat < b.toNat || (a = b && listLe as bs)

/-- Strict string order as Python compares strings. -/
def strLt (s t : String) : Prop := listLt s.data t.data = true

/-- Reflexive string order as Python compares strings. -/
def strLe (s t : String) : Prop := listLe s.data t.data = true

instance strLt.decRel : DecidableRel strLt := fun s t =>
  inferInstanceAs (Decidable (listLt s.data t.data = true))

instance strLe.decRel : DecidableRel strLe := fun s t =>
  inferInstanceAs (Decidable (listLe s.data t.data = true))

/-- Python tuple comparison on (key, value) string pairs, as used by
sorted(d.items()). -/
def pairLe (p q : String × String) : Prop :=
  strLt p.1 q.1 ∨ (p.1 = q.1 ∧ strLe p.2 q.2)

instance pairLe.decRel : DecidableRel pairLe := fun p q =>
  inferInstanceAs (Decidable (strLt p.1 q.1 ∨ (p.1 = q.1 ∧ strLe p.2 q.2)))

/-- Comparison of items by key only (ascending class or error code). -/
def keyLe (p q : String × String) : Prop := strLe p.1 q.1

instance keyLe.decRel : DecidableRel keyLe := fun p q =>
  inferInstanceAs (Decidable (listLe p.1.data q.1.data = true))

/-! ### Registries: Python dicts as insertion-ordered association lists -/

/-- ClassRegistry: class code to class label, insertion ordered. -/
abbrev ClassRegistry := List (String × String)

/-- Mapping of error code to symbolic label for one class. -/
abbrev CodeMap := List (String × String)

/-- ErrorRegistry: class code to per-class code map, insertion ordered. -/
abbrev ErrorRegistry := List (String × CodeMap)

/-- Dict lookup: value at the (unique, hence first) occurrence of a key. -/
def getA {β : Type} : List (String × β) → String → Option β
  | [], _ => none
  | (k, v) :: rest, key => if k = key then some v else getA rest key

/-- Dict item assignment: replace in place if the key is present,
append at the end otherwise. -/
def setA {β : Type} : List (String × β) → String → β → List (String × β)
  | [], key, v => [(key, v)]
  | (k, w) :: rest, key, v =>
    if k = key then (key, v) :: rest else (k, w) :: setA rest key v

/-- Python dict.update(other): assign every item of other in order. -/
def updateA {β : Type} (m other : List (String × β)) : List (String × β) :=
  other.foldl (fun acc p => setA acc p.1 p.2) m

/-- Two-level lookup in an ErrorRegistry. -/
def getA2 (e : ErrorRegistry) (cls code : String) : Option String :=
  (getA e cls).bind fun m => getA m code

/-- Models errors[cls][code] = lbl where errors is a defaultdict(dict):
accessing a missing class key materialises an empty inner dict. -/
def setErr (e : ErrorRegistry) (cls code lbl : String) : ErrorRegistry :=
  setA e cls (setA ((getA e cls).getD []) code lbl)

/-! ### Line Parser: the two regular expressions of parse_errors_txt -/

/-- Matcher of re.match(r"Section: (Class (..) - .+)", line): on success
it yields (group 1, group 2) = (label, class code).  The dots of the
pattern exclude the newline character; group 1 extends to the end of the
greedy ".+", and re.match leaves the end unanchored. -/
def matchSection (cs : List Char) : Option (String × String) :=
  if "Section: Class ".data.isPrefixOf cs then
    match cs.drop 15 with
    | a :: b :: r =>
      if a = '\n' ∨ b = '\n' then none
      else if " - ".data.isPrefixOf r then
        let tl := (r.drop 3).takeWhile (fun c => c ≠ '\n')
        if tl = [] then none
        else some (⟨"Class ".data ++ a :: b :: " - ".data ++ tl⟩, ⟨[a, b]⟩)
      else none
    | _ => none
  else none

/-- Matcher of
re.match(r"(.....)\s+(?:E|W|S)\s+ERRCODE_(\S+)(?:\s+(\S+))?$", line):
on success it yields the groups (errcode, macro token, optional spec).
Match structure is deterministic: after the five leading characters all
repetition operators are forced by maximal munch, because whitespace and
non-whitespace runs cannot trade characters.  The Python "$" also matches
just before one trailing newline. -/
def matchError (cs : List Char) : Option (String × String × Option String) :=
  match cs with
  | c1 :: c2 :: c3 :: c4 :: c5 :: rest =>
    if c1 = '\n' ∨ c2 = '\n' ∨ c3 = '\n' ∨ c4 = '\n' ∨ c5 = '\n' then none
    else
      let ws1 := rest.takeWhile pyWS
      let r1 := rest.dropWhile pyWS
      if ws1 = [] then none
      else
        match r1 with
        | sev :: r2 =>
          if sev = 'E' ∨ sev = 'W' ∨ sev = 'S' then
            let ws2 := r2.takeWhile pyWS
            let r3 := r2.dropWhile pyWS
            if ws2 = [] then none
            else if "ERRCODE_".data.isPrefixOf r3 then
              let r4 := r3.drop 8
              let mac := r4.takeWhile (fun c => !pyWS c)
              let r5 := r4.dropWhile (fun c => !pyWS c)
              if mac = [] then none
              else
                let r6 := r5.dropWhile pyWS
                let spc := r6.takeWhile (fun c => !pyWS c)
                let r7 := r6.dropWhile (fun c => !pyWS c)
                if spc ≠ [] ∧ (r7 = [] ∨ r7 = ['\n']) then
                  some (⟨[c1, c2, c3, c4, c5]⟩, ⟨mac⟩, some ⟨spc⟩)
                else if r5 = [] ∨ r5 = ['\n'] then
                  some (⟨[c1, c2, c3, c4, c5]⟩, ⟨mac⟩, none)
                else none
            else none
          else none
        | [] => none
  | _ => none

/-! ### parse_errors_txt -/

/-- Failure modes of parse_errors_txt: the explicit
ValueError("unexpected line: ...") raised on a line matching neither
pattern, and the UnboundLocalError raised by reading the class_ local
before any Section line assigned it. -/
inductive ParseError where
  | unexpectedLine (line : String)
  | unboundClass
deriving DecidableEq

/-- Loop state of parse_errors_txt: the two accumulators and the class_
local, which is unbound (none) until the first Section line. -/
structure ParseState where
  classes : ClassRegistry
  errors : ErrorRegistry
  curClass : Option String
deriving DecidableEq

/-- Comment stripping and blank trimming applied to each line before
classification: line.split(Char 35)[0].strip(). -/
def stripLine (line : String) : String :=
  pyStrip ⟨line.data.takeWhile (fun c => c ≠ '#')⟩

/-- Classification and state update for one already-stripped line. -/
def processStripped (st : ParseState) (l : String) : Except ParseError ParseState :=
  if l = "" then .ok st
  else
    match matchSection l.data with
    | some (label, cls) =>
      .ok { st with classes := setA st.classes cls label, curClass := some cls }
    | none =>
      match matchError l.data with
      | some (_, _, none) => .ok st
      | some (errcode, _, some spc) =>
        match st.curClass with
        | none => .error .unboundClass
        | some cls =>
          .ok { st with errors := setErr st.errors cls errcode (pyUpper spc) }
      | none => .error (.unexpectedLine l)

/-- One iteration of the parse_errors_txt loop body. -/
def processLine (st : ParseState) (line : String) : Except ParseError ParseState :=
  processStripped st (stripLine line)

/-- Start state: empty dict, empty defaultdict, class_ unbound. -/
def initState : ParseState := ⟨[], [], none⟩

/-- parse_errors_txt on the decoded lines of one fetched document. -/
def parse_errors_txt (lines : List String) :
    Except ParseError (ClassRegistry × ErrorRegistry) :=
  (lines.foldlM processLine initState).map fun st => (st.classes, st.errors)

/-! ### fetch_errors: the per-version merge fold -/

/-- Inner fold of the fetch_errors loop: for c, cerrs in e1.items() do
errors[c].update(cerrs), where errors is a defaultdict(dict) so a missing
class key materialises an empty dict.  The whole per-version step is
classes.update(c1); the hardcoded legacy injection
errors["22"]["22020"] = "INVALID_LIMIT_VALUE"; then this fold.  Note that
the injection precedes the per-version update fold in the loop body. -/
def mergeErrors (es items : ErrorRegistry) : ErrorRegistry :=
  items.foldl (fun e p => setA e p.1 (updateA ((getA e p.1).getD []) p.2)) es

/-- Body of the fetch_errors loop for one version. -/
def mergeVersion (acc v : ClassRegistry × ErrorRegistry) :
    ClassRegistry × ErrorRegistry :=
  let cs := updateA acc.1 v.1
  let es := setErr acc.2 "22" "22020" "INVALID_LIMIT_VALUE"
  (cs, mergeErrors es v.2)

/-- fetch_errors, with the network fetch abstracted away: the input is
the list of decoded documents, one per version in order; each is parsed
and merged inside the loop, and the first parse failure aborts. -/
def fetch_errors (docs : List (List String)) :
    Except ParseError (ClassRegistry × ErrorRegistry) :=
  docs.foldlM (fun acc doc => (parse_errors_txt doc).map (mergeVersion acc)) ([], [])

/-! ### generate_module_data -/

/-- Python repr of an ASCII string: quote selection and escaping as
CPython prints string literals. -/
def pyReprChar (q c : Char) : List Char :=
  if c = '\\' then ['\\', '\\']
  else if c = q then ['\\', q]
  else if c = '\n' then ['\\', 'n']
  else if c = '\t' then ['\\', 't']
  else if c = '\r' then ['\\', 'r']
  else if c.toNat < 32 ∨ c.toNat = 127 then
    ['\\', 'x',
      if c.toNat / 16 < 10 then Char.ofNat (48 + c.toNat / 16)
        else Char.ofNat (87 + c.toNat / 16),
      if c.toNat % 16 < 10 then Char.ofNat (48 + c.toNat % 16)
        else Char.ofNat (87 + c.toNat % 16)]
  else [c]

/-- Python repr(s) for ASCII s, as used by the %r format directive. -/
def pyRepr (s : String) : String :=
  let q : Char := if s.data.contains '\'' && !s.data.contains '"' then '"' else '\''
  ⟨q :: s.data.flatMap (pyReprChar q) ++ [q]⟩

/-- Identifier derivation inlined in generate_module_data:
clslabel.split(" - ")[1].split("(")[0].strip()
  .replace(" ", "_").replace(Char 47, "_").upper().
Labels reaching this point come from the Section pattern and therefore
contain " - "; the [1] index is modelled total with default "". -/
def classIdent (clslabel : String) : String :=
  let afterDash := (pySplit clslabel " - ").getD 1 ""
  let beforeParen := (pySplit afterDash "(").getD 0 ""
  pyUpper (pyReplace (pyReplace (pyStrip beforeParen) " " "_") "/" "_")

/-- Python sorted(d.items()): ascending under tuple comparison.  Since
pairLe is a total order (ties are equal pairs), insertion sort computes
the same list as any Python sort. -/
def sortItems (l : List (String × String)) : List (String × String) :=
  List.insertionSort pairLe l

/-- Class-constant declaration line: "CLASS_%s = %r" % (err, clscode). -/
def classDecl (clscode clslabel : String) : String :=
  "CLASS_" ++ classIdent clslabel ++ " = " ++ pyRepr clscode

/-- Error-constant declaration line: "%s = %r" % (errlabel, errcode). -/
def errDecl (errcode errlabel : String) : String :=
  errlabel ++ " = " ++ pyRepr errcode

/-- generate_module_data: the yielded lines, in order. -/
def generate_module_data (classes : ClassRegistry) (errors : ErrorRegistry) :
    List String :=
  ["", "# Error classes"]
  ++ (sortItems classes).map (fun p => classDecl p.1 p.2)
  ++ (sortItems classes).flatMap (fun p =>
        ["", "# " ++ p.2]
        ++ (sortItems ((getA errors p.1).getD [])).map (fun q => errDecl q.1 q.2))

/-! ### read_base_file and the main pipeline -/

/-- read_base_file on the lines of the target artifact: collect every
line up to and including the first sentinel line (one starting with
"# autogenerated"); none models the ValueError raised at end of file. -/
def read_base_file : List String → Option (List String)
  | [] => none
  | l :: rest =>
    if pyStartsWith l "# autogenerated" then some [l]
    else (read_base_file rest).map (l :: ·)

/-- Failure modes of the whole run (the CLI usage check is outside the
modelled core). -/
inductive RunError where
  | sentinelMissing
  | parseFailure (e : ParseError)
deriving DecidableEq

/-- The main pipeline on a target artifact and the fetched documents:
read_base_file first, then fetch_errors, and only on success the output
lines (prefix plus generated block) are produced.  An error result means
the target file was never opened for writing, so its bytes are unchanged. -/
def runMain (file : List String) (docs : List (List String)) :
    Except RunError (List String) :=
  match read_base_file file with
  | none => .error .sentinelMissing
  | some fileStart =>
    match fetch_errors docs with
    | .error e => .error (.parseFailure e)
    | .ok (classes, errors) => .ok (fileStart ++ generate_module_data classes errors)

/-! ### Spec-side definitions, used to state the refinement claims -/

/-- Key-only insertion sort: items in ascending order of their key. -/
def sortByKey (l : List (String × String)) : List (String × String) :=
  List.insertionSort keyLe l

/-- Modelled on the spec wording of the Declaration Generator contract:
a blank line and the header "# Error classes", one class-constant
declaration per class code in ascending lexicographic order of class
code, then for each class code in ascending lexicographic order a blank
line, a comment reproducing the full class label, and one declaration per
error code of that class in ascending lexicographic order of error code. -/
def generateSpec (classes : ClassRegistry) (errors : ErrorRegistry) :
    List String :=
  ["", "# Error classes"]
  ++ (sortByKey classes).map (fun p => classDecl p.1 p.2)
  ++ (sortByKey classes).flatMap (fun p =>
        ["", "# " ++ p.2]
        ++ (sortByKey ((getA errors p.1).getD [])).map (fun q => errDecl q.1 q.2))

/-- Modelled on the spec wording for the class-constant identifier: the
text following the FIRST " - " separator (all of it), truncated at the
first parenthesis if present, trimmed, spaces and forward slashes
replaced by underscores, upper-cased. -/
def specClassIdent (clslabel : String) : String :=
  let afterFirst := joinWith " - " (pySplit clslabel " - ").tail
  let beforeParen := (pySplit afterFirst "(").getD 0 ""
  pyUpper (pyReplace (pyReplace (pyStrip beforeParen) " " "_") "/" "_")

/-- Invariant of the parse loop state: registries have no duplicate keys
at either level (they model Python dicts). -/
def RegInv (st : ParseState) : Prop :=
  (st.classes.map Prod.fst).Nodup ∧ (st.errors.map Prod.fst).Nodup ∧
    ∀ p ∈ st.errors, (p.2.map Prod.fst).Nodup

/-! ### Association-list lemmas (dict semantics) -/

theorem getA_setA_self {β : Type} (m : List (String × β)) (k : String) (v : β) :
    getA (setA m k v) k = some v := by
  induction m with
  | nil => simp [getA, setA]
  | cons p rest ih =>
    obtain ⟨k', w⟩ := p
    by_cases h : k' = k <;> simp [getA, setA, h, ih]

theorem getA_setA_ne {β : Type} (m : List (String × β)) (k key : String) (v : β)
    (h : key ≠ k) : getA (setA m k v) key = getA m key := by
  induction m with
  | nil => simp [getA, setA, Ne.symm h]
  | cons p rest ih =>
    obtain ⟨k', w⟩ := p
    by_cases h2 : k' = k
    · subst h2; simp [getA, setA, Ne.symm h]
    · simp [getA, setA, h2, ih]

theorem getA_eq_none_of_not_mem_keys {β : Type} (m : List (String × β))
    (k : String) (h : k ∉ m.map Prod.fst) : getA m k = none := by
  induction m with
  | nil => rfl
  | cons p rest ih =>
    obtain ⟨k', w⟩ := p
    rw [List.map_cons] at h
    have h1 : ¬ k' = k := fun e => h (by rw [e]; exact List.mem_cons_self _ _)
    have h2 : k ∉ rest.map Prod.fst := fun hx => h (List.mem_cons_of_mem _ hx)
    simp only [getA, h1, if_false]
    exact ih h2

theorem not_mem_keys_of_getA_eq_none {β : Type} (m : List (String × β))
    (k : String) (h : getA m k = none) : k ∉ m.map Prod.fst := by
  induction m with
  | nil => simp
  | cons p rest ih =>
    obtain ⟨k', w⟩ := p
    have h1 : ¬ k' = k := by
      intro e; simp [getA, e] at h
    have h2 : getA rest k = none := by simpa [getA, h1] using h
    intro hx
    rw [List.map_cons, List.mem_cons] at hx
    rcases hx with hx | hx
    · exact h1 hx.symm
    · exact ih h2 hx

theorem getA_mem {β : Type} (m : List (String × β)) (k : String) (v : β)
    (h : getA m k = some v) : (k, v) ∈ m := by
  induction m with
  | nil => simp [getA] at h
  | cons p rest ih =>
    obtain ⟨k', w⟩ := p
    by_cases h2 : k' = k
    · subst h2
      simp [getA] at h
      simp [h]
    · simp [getA, h2] at h
      exact List.mem_cons_of_mem _ (ih h)

theorem mem_setA {β : Type} (m : List (String × β)) (k : String) (v : β)
    (p : String × β) (h : p ∈ setA m k v) : p ∈ m ∨ p = (k, v) := by
  induction m with
  | nil => simp [setA] at h; simp [h]
  | cons q rest ih =>
    obtain ⟨k', w⟩ := q
    by_cases h2 : k' = k
    · subst h2
      simp [setA] at h
      rcases h with h | h
      · right; simp [h]
      · left; exact List.mem_cons_of_mem _ h
    · simp [setA, h2] at h
      rcases h with h | h
      · left; simp [h]
      · rcases ih h with h3 | h3
        · left; exact List.mem_cons_of_mem _ h3
        · right; exact h3

theorem mem_keys_setA {β : Type} (m : List (String × β)) (k : String) (v : β)
    (x : String) (h : x ∈ (setA m k v).map Prod.fst) :
    x ∈ m.map Prod.fst ∨ x = k := by
  rcases List.mem_map.mp h with ⟨p, hp, hx⟩
  rcases mem_setA m k v p hp with h2 | h2
  · left; exact hx ▸ List.mem_map_of_mem _ h2
  · right; rw [← hx, h2]

theorem nodup_keys_setA {β : Type} (m : List (String × β)) (k : String) (v : β)
    (h : (m.map Prod.fst).Nodup) : ((setA m k v).map Prod.fst).Nodup := by
  induction m with
  | nil => simp [setA]
  | cons p rest ih =>
    obtain ⟨k', w⟩ := p
    rw [List.map_cons, List.nodup_cons] at h
    by_cases h2 : k' = k
    · subst h2
      have hset : setA ((k', w) :: rest) k' v = (k', v) :: rest := by
        simp [setA]
      rw [hset, List.map_cons, List.nodup_cons]
      exact h
    · have hset : setA ((k', w) :: rest) k v = (k', w) :: setA rest k v := by
        simp [setA, h2]
      rw [hset, List.map_cons, List.nodup_cons]
      refine ⟨fun hx => ?_, ih h.2⟩
      rcases mem_keys_setA rest k v k' hx with h3 | h3
      · exact h.1 h3
      · exact h2 h3

theorem getA_updateA_not_mem {β : Type} (other : List (String × β))
    (m : List (String × β)) (k : String) (h : getA other k = none) :
    getA (updateA m other) k = getA m k := by
  induction other generalizing m with
  | nil => rfl
  | cons p rest ih =>
    obtain ⟨k', v⟩ := p
    have hk : ¬ k' = k := by
      intro e; simp [getA, e] at h
    have h2 : getA rest k = none := by simpa [getA, hk] using h
    have : updateA m ((k', v) :: rest) = updateA (setA m k' v) rest := rfl
    rw [this, ih _ h2, getA_setA_ne _ _ _ _ (fun e => hk e.symm)]

theorem getA_updateA_of_nodup {β : Type} (other : List (String × β))
    (m : List (String × β)) (k : String) (v : β)
    (hn : (other.map Prod.fst).Nodup) (h : getA other k = some v) :
    getA (updateA m other) k = some v := by
  induction other generalizing m with
  | nil => simp [getA] at h
  | cons p rest ih =>
    obtain ⟨k', w⟩ := p
    rw [List.map_cons, List.nodup_cons] at hn
    have hstep : updateA m ((k', w) :: rest) = updateA (setA m k' w) rest := rfl
    by_cases h2 : k' = k
    · subst h2
      simp [getA] at h
      have hnone : getA rest k' = none := getA_eq_none_of_not_mem_keys _ _ hn.1
      rw [hstep, getA_updateA_not_mem _ _ _ hnone, getA_setA_self, h]
    · simp [getA, h2] at h
      rw [hstep, ih _ hn.2 h]

/-! ### Lemmas about the inner merge fold of fetch_errors -/

theorem getA_mergeErrors_not_mem (items es : ErrorRegistry) (cls : String)
    (h : getA items cls = none) :
    getA (mergeErrors es items) cls = getA es cls := by
  induction items generalizing es with
  | nil => rfl
  | cons p rest ih =>
    obtain ⟨c, cerrs⟩ := p
    have hc : ¬ c = cls := by
      intro e; simp [getA, e] at h
    have h2 : getA rest cls = none := by simpa [getA, hc] using h
    have hstep : mergeErrors es ((c, cerrs) :: rest)
        = mergeErrors (setA es c (updateA ((getA es c).getD []) cerrs)) rest := rfl
    rw [hstep, ih _ h2, getA_setA_ne _ _ _ _ (fun e => hc e.symm)]

theorem getA_mergeErrors_of_nodup (items es : ErrorRegistry) (cls : String)
    (m : CodeMap) (hn : (items.map Prod.fst).Nodup) (h : getA items cls = some m) :
    getA (mergeErrors es items) cls
      = some (updateA ((getA es cls).getD []) m) := by
  induction items generalizing es with
  | nil => simp [getA] at h
  | cons p rest ih =>
    obtain ⟨c, cerrs⟩ := p
    rw [List.map_cons, List.nodup_cons] at hn
    have hstep : mergeErrors es ((c, cerrs) :: rest)
        = mergeErrors (setA es c (updateA ((getA es c).getD []) cerrs)) rest := rfl
    by_cases h2 : c = cls
    · subst h2
      simp [getA] at h
      have hnone : getA rest c = none := getA_eq_none_of_not_mem_keys _ _ hn.1
      rw [hstep, getA_mergeErrors_not_mem _ _ _ hnone, getA_setA_self, h]
    · simp [getA, h2] at h
      rw [hstep, ih _ hn.2 h, getA_setA_ne _ _ _ _ (fun e => h2 e.symm)]

/-! ### Order lemmas for the lexicographic comparisons -/

theorem charToNatInjective {a b : Char} (h : a.toNat = b.toNat) : a = b :=
  Char.ext (UInt32.ext h)

theorem stringDataEq {s t : String} (h : s.data = t.data) : s = t := by
  cases s; cases t; exact congrArg String.mk h

theorem listLe_refl (l : List Char) : listLe l l = true := by
  induction l with
  | nil => rfl
  | cons a as ih => simp [listLe, ih]

theorem listLt_irrefl (l : List Char) : listLt l l = false := by
  induction l with
  | nil => rfl
  | cons a as ih => simp [listLt, ih]

theorem listLe_trans (a : List Char) : ∀ b c, listLe a b = true →
    listLe b c = true → listLe a c = true := by
  induction a with
  | nil => intro b c _ _; rfl
  | cons x xs ih =>
    intro b c hab hbc
    cases b with
    | nil => simp [listLe] at hab
    | cons y ys =>
      cases c with
      | nil => simp [listLe] at hbc
      | cons z zs =>
        simp only [listLe, Bool.or_eq_true, Bool.and_eq_true,
          decide_eq_true_eq] at hab hbc ⊢
        rcases hab with h1 | ⟨rfl, h2⟩
        · rcases hbc with h3 | ⟨rfl, h4⟩
          · exact Or.inl (Nat.lt_trans h1 h3)
          · exact Or.inl h1
        · rcases hbc with h3 | ⟨rfl, h4⟩
          · exact Or.inl h3
          · exact Or.inr ⟨rfl, ih _ _ h2 h4⟩

theorem listLe_antisymm (a : List Char) : ∀ b, listLe a b = true →
    listLe b a = true → a = b := by
  induction a with
  | nil =>
    intro b h1 h2
    cases b with
    | nil => rfl
    | cons y ys => simp [listLe] at h2
  | cons x xs ih =>
    intro b h1 h2
    cases b with
    | nil => simp [listLe] at h1
    | cons y ys =>
      simp only [listLe, Bool.or_eq_true, Bool.and_eq_true,
        decide_eq_true_eq] at h1 h2
      rcases h1 with h1 | ⟨rfl, h1⟩
      · rcases h2 with h2 | ⟨rfl, h2⟩
        · omega
        · omega
      · rcases h2 with h2 | ⟨_, h2⟩
        · omega
        · rw [ih ys h1 h2]

theorem listLe_total (a : List Char) : ∀ b,
    listLe a b = true ∨ listLe b a = true := by
  induction a with
  | nil => intro b; left; rfl
  | cons x xs ih =>
    intro b
    cases b with
    | nil => right; rfl
    | cons y ys =>
      rcases Nat.lt_trichotomy x.toNat y.toNat with h | h | h
      · left; simp [listLe, h]
      · have hxy : x = y := charToNatInjective h
        subst hxy
        rcases ih ys with h2 | h2
        · left; simp [listLe, h2]
        · right; simp [listLe, h2]
      · right; simp [listLe, h]

theorem listLe_iff (a : List Char) : ∀ b,
    listLe a b = true ↔ (listLt a b = true ∨ a = b) := by
  induction a with
  | nil =>
    intro b
    cases b <;> simp [listLe, listLt]
  | cons x xs ih =>
    intro b
    cases b with
    | nil => simp [listLe, listLt]
    | cons y ys =>
      simp only [listLe, listLt, Bool.or_eq_true, Bool.and_eq_true,
        decide_eq_true_eq, ih, List.cons.injEq]
      constructor
      · rintro (h | ⟨rfl, h | rfl⟩)
        · exact Or.inl (Or.inl h)
        · exact Or.inl (Or.inr ⟨rfl, h⟩)
        · exact Or.inr ⟨rfl, rfl⟩
      · rintro ((h | ⟨rfl, h⟩) | ⟨rfl, rfl⟩)
        · exact Or.inl h
        · exact Or.inr ⟨rfl, Or.inl h⟩
        · exact Or.inr ⟨rfl, Or.inr rfl⟩

theorem listLt_le {a b : List Char} (h : listLt a b = true) : listLe a b = true :=
  (listLe_iff a b).mpr (Or.inl h)

theorem listLt_not_symm {a b : List Char} (h1 : listLt a b = true)
    (h2 : listLt b a = true) : False := by
  have he : a = b := listLe_antisymm a b (listLt_le h1) (listLt_le h2)
  subst he
  rw [listLt_irrefl] at h1
  exact Bool.false_ne_true h1

theorem listLt_trans {a b c : List Char} (hab : listLt a b = true)
    (hbc : listLt b c = true) : listLt a c = true := by
  have hac : listLe a c = true :=
    listLe_trans a b c (listLt_le hab) (listLt_le hbc)
  rcases (listLe_iff a c).mp hac with h | rfl
  · exact h
  · exact (listLt_not_symm hab hbc).elim

/-! ### The comparison relations are total orders -/

theorem strNeData {s t : String} (h : s ≠ t) : s.data ≠ t.data :=
  fun e => h (stringDataEq e)

instance : IsTrans (String × String) pairLe where
  trans p q r hpq hqr := by
    rcases hpq with h1 | ⟨h1, h2⟩
    · rcases hqr with h3 | ⟨h3, h4⟩
      · exact Or.inl (listLt_trans h1 h3)
      · exact Or.inl (h3 ▸ h1)
    · rcases hqr with h3 | ⟨h3, h4⟩
      · exact Or.inl (h1.symm ▸ h3)
      · exact Or.inr ⟨h1.trans h3, listLe_trans _ _ _ h2 h4⟩

instance : IsAntisymm (String × String) pairLe where
  antisymm p q hpq hqp := by
    rcases hpq with h1 | ⟨h1, h2⟩
    · rcases hqp with h3 | ⟨h3, h4⟩
      · exact (listLt_not_symm h1 h3).elim
      · rw [h3] at h1
        exact (listLt_not_symm h1 h1).elim
    · rcases hqp with h3 | ⟨h3, h4⟩
      · rw [h1] at h3
        exact (listLt_not_symm h3 h3).elim
      · exact Prod.ext h1 (stringDataEq (listLe_antisymm _ _ h2 h4))

instance : IsTotal (String × String) pairLe where
  total p q := by
    rcases listLe_total p.1.data q.1.data with h | h
    · rcases (listLe_iff _ _).mp h with h2 | h2
      · exact Or.inl (Or.inl h2)
      · have he : p.1 = q.1 := stringDataEq h2
        rcases listLe_total p.2.data q.2.data with h3 | h3
        · exact Or.inl (Or.inr ⟨he, h3⟩)
        · exact Or.inr (Or.inr ⟨he.symm, h3⟩)
    · rcases (listLe_iff _ _).mp h with h2 | h2
      · exact Or.inr (Or.inl h2)
      · have he : q.1 = p.1 := stringDataEq h2
        rcases listLe_total p.2.data q.2.data with h3 | h3
        · exact Or.inl (Or.inr ⟨he.symm, h3⟩)
        · exact Or.inr (Or.inr ⟨he, h3⟩)

instance : IsTrans (String × String) keyLe where
  trans _ _ _ hpq hqr := listLe_trans _ _ _ hpq hqr

instance : IsTotal (String × String) keyLe where
  total p q := listLe_total p.1.data q.1.data

/-! ### Sorting lemmas -/

theorem sortItems_sorted (l : List (String × String)) :
    List.Sorted pairLe (sortItems l) :=
  List.sorted_insertionSort pairLe l

theorem sortItems_perm (l : List (String × String)) : (sortItems l).Perm l :=
  List.perm_insertionSort pairLe l

/-- Sorting is determined by the multiset of items: permuted registries
sort identically, because pairLe is a total order. -/
theorem sortItems_eq_of_perm {l₁ l₂ : List (String × String)}
    (h : l₁.Perm l₂) : sortItems l₁ = sortItems l₂ :=
  List.eq_of_perm_of_sorted
    ((sortItems_perm l₁).trans (h.trans (sortItems_perm l₂).symm))
    (sortItems_sorted l₁) (sortItems_sorted l₂)

/-- On a registry with no duplicate keys, sorting items under Python
tuple comparison agrees with sorting by key alone. -/
theorem sortItems_eq_sortByKey (l : List (String × String))
    (h : (l.map Prod.fst).Nodup) : sortItems l = sortByKey l := by
  have hperm : (sortItems l).Perm (sortByKey l) :=
    (sortItems_perm l).trans (List.perm_insertionSort keyLe l).symm
  have hkey : List.Sorted keyLe (sortByKey l) :=
    List.sorted_insertionSort keyLe l
  have hnod : ((sortByKey l).map Prod.fst).Nodup :=
    (((List.perm_insertionSort keyLe l).map Prod.fst).symm).nodup h
  have hne : List.Pairwise (fun p q : String × String => p.1 ≠ q.1)
      (sortByKey l) := List.pairwise_map.mp hnod
  have hsorted : List.Sorted pairLe (sortByKey l) := by
    refine List.Pairwise.imp₂ (fun p q hle hne => ?_) hkey hne
    rcases (listLe_iff _ _).mp hle with h2 | h2
    · exact Or.inl h2
    · exact absurd (stringDataEq h2) hne
  exact List.eq_of_perm_of_sorted hperm (sortItems_sorted l) hsorted

/-! ### Two-level lookup lemmas -/

theorem getA2_setErr_self (e : ErrorRegistry) (cls code v : String) :
    getA2 (setErr e cls code v) cls code = some v := by
  unfold getA2 setErr
  rw [getA_setA_self]
  simp only [Option.bind]
  exact getA_setA_self _ _ _

theorem getA2_setErr_ne (e : ErrorRegistry) (cls code c k v : String)
    (h : ¬ (cls = c ∧ code = k)) :
    getA2 (setErr e c k v) cls code = getA2 e cls code := by
  unfold getA2 setErr
  by_cases h1 : cls = c
  · subst h1
    have h2 : code ≠ k := fun e2 => h ⟨rfl, e2⟩
    rw [getA_setA_self]
    simp only [Option.bind]
    rw [getA_setA_ne _ _ _ _ h2]
    cases hg : getA e cls <;> simp [hg, getA]
  · rw [getA_setA_ne _ _ _ _ h1]

theorem getA2_mergeErrors_some (items es : ErrorRegistry) (cls code v : String)
    (hOut : (items.map Prod.fst).Nodup)
    (hInner : ∀ p ∈ items, (p.2.map Prod.fst).Nodup)
    (h : getA2 items cls code = some v) :
    getA2 (mergeErrors es items) cls code = some v := by
  unfold getA2 at h ⊢
  cases hi : getA items cls with
  | none => rw [hi] at h; simp at h
  | some m =>
    rw [hi] at h
    simp only [Option.bind] at h
    rw [getA_mergeErrors_of_nodup _ _ _ _ hOut hi]
    simp only [Option.bind]
    exact getA_updateA_of_nodup _ _ _ _ (hInner (cls, m) (getA_mem _ _ _ hi)) h

theorem getA2_mergeErrors_none (items es : ErrorRegistry) (cls code : String)
    (hOut : (items.map Prod.fst).Nodup)
    (h : getA2 items cls code = none) :
    getA2 (mergeErrors es items) cls code = getA2 es cls code := by
  unfold getA2 at h ⊢
  cases hi : getA items cls with
  | none => rw [getA_mergeErrors_not_mem _ _ _ hi]
  | some m =>
    rw [hi] at h
    simp only [Option.bind] at h
    rw [getA_mergeErrors_of_nodup _ _ _ _ hOut hi]
    simp only [Option.bind]
    rw [getA_updateA_not_mem _ _ _ h]
    cases hg : getA es cls <;> simp [getA]

/-! ### parse_errors_txt produces duplicate-free registries -/

theorem regInv_init : RegInv initState := by
  refine ⟨List.nodup_nil, List.nodup_nil, ?_⟩
  intro p hp
  simp [initState] at hp

theorem regInv_setErr {st : ParseState} (hinv : RegInv st)
    (cls code lbl : String) :
    ((setErr st.errors cls code lbl).map Prod.fst).Nodup ∧
      ∀ p ∈ setErr st.errors cls code lbl, (p.2.map Prod.fst).Nodup := by
  refine ⟨nodup_keys_setA _ _ _ hinv.2.1, ?_⟩
  intro p hp
  rcases mem_setA _ _ _ _ hp with h | h
  · exact hinv.2.2 p h
  · rw [h]
    refine nodup_keys_setA _ _ _ ?_
    cases hg : getA st.errors cls with
    | none => simp
    | some m => simpa using hinv.2.2 (cls, m) (getA_mem _ _ _ hg)

theorem processStripped_regInv (st : ParseState) (l : String)
    (st' : ParseState) (hinv : RegInv st)
    (h : processStripped st l = .ok st') : RegInv st' := by
  unfold processStripped at h
  by_cases hblank : l = ""
  · rw [if_pos hblank] at h
    injection h with h
    exact h ▸ hinv
  · rw [if_neg hblank] at h
    cases hsec : matchSection l.data with
    | some p =>
      obtain ⟨label, cls⟩ := p
      rw [hsec] at h
      injection h with h
      subst h
      exact ⟨nodup_keys_setA _ _ _ hinv.1, hinv.2.1, hinv.2.2⟩
    | none =>
      rw [hsec] at h
      cases herr : matchError l.data with
      | some t =>
        obtain ⟨code, mac, spc⟩ := t
        rw [herr] at h
        cases spc with
        | none =>
          injection h with h
          exact h ▸ hinv
        | some sp =>
          cases hcur : st.curClass with
          | none => rw [hcur] at h; cases h
          | some cls =>
            rw [hcur] at h
            injection h with h
            subst h
            exact ⟨hinv.1, (regInv_setErr hinv cls code (pyUpper sp)).1,
              (regInv_setErr hinv cls code (pyUpper sp)).2⟩
      | none => rw [herr] at h; cases h

theorem foldlM_regInv (lines : List String) (st st' : ParseState)
    (hinv : RegInv st) (h : lines.foldlM processLine st = .ok st') :
    RegInv st' := by
  induction lines generalizing st with
  | nil =>
    have h2 : (Except.ok st : Except ParseError ParseState) = .ok st' := h
    injection h2 with h2
    exact h2 ▸ hinv
  | cons l rest ih =>
    rw [List.foldlM_cons] at h
    cases hstep : processLine st l with
    | error e => rw [hstep] at h; cases h
    | ok st1 =>
      rw [hstep] at h
      exact ih st1 (processStripped_regInv st (stripLine l) st1 hinv hstep) h

theorem parse_errors_txt_regInv (lines : List String)
    (cs : ClassRegistry) (es : ErrorRegistry)
    (h : parse_errors_txt lines = .ok (cs, es)) :
    (cs.map Prod.fst).Nodup ∧ (es.map Prod.fst).Nodup ∧
      ∀ p ∈ es, (p.2.map Prod.fst).Nodup := by
  unfold parse_errors_txt at h
  cases hf : lines.foldlM processLine initState with
  | error e => rw [hf] at h; cases h
  | ok st =>
    rw [hf] at h
    injection h with h
    have hinv := foldlM_regInv lines initState st regInv_init hf
    have h1 : st.classes = cs := congrArg Prod.fst h
    have h2 : st.errors = es := congrArg Prod.snd h
    exact ⟨h1 ▸ hinv.1, h2 ▸ hinv.2.1, h2 ▸ hinv.2.2⟩

/-! ### Structure of the fetch_errors fold -/

theorem fetch_errors_nil : fetch_errors [] = .ok ([], []) := rfl

theorem foldlM_single {ε σ α : Type} (f : σ → α → Except ε σ) (b : σ) (a : α) :
    List.foldlM f b [a] = f b a := by
  have hstep : List.foldlM f b [a] = (f b a).bind fun b' => List.foldlM f b' [] :=
    rfl
  rw [hstep]
  cases hf : f b a with
  | error e => rfl
  | ok v => rfl

theorem fetch_errors_snoc (docs : List (List String)) (d : List String) :
    fetch_errors (docs ++ [d])
      = (fetch_errors docs).bind
          (fun acc => (parse_errors_txt d).map (mergeVersion acc)) := by
  unfold fetch_errors
  rw [List.foldlM_append]
  cases List.foldlM
      (fun acc doc => (parse_errors_txt doc).map (mergeVersion acc))
      ([], []) docs with
  | error e => rfl
  | ok acc =>
    show List.foldlM (fun acc doc => (parse_errors_txt doc).map (mergeVersion acc))
          acc [d]
        = (parse_errors_txt d).map (mergeVersion acc)
    rw [foldlM_single]

theorem fetch_errors_one (d : List String) (r : ClassRegistry × ErrorRegistry)
    (h : parse_errors_txt d = .ok r) :
    fetch_errors [d] = .ok (mergeVersion ([], []) r) := by
  have e := fetch_errors_snoc [] d
  rw [List.nil_append] at e
  rw [e, fetch_errors_nil]
  show (parse_errors_txt d).map (mergeVersion ([], [])) = _
  rw [h]
  rfl

theorem fetch_errors_two (d1 d2 : List String)
    (r1 r2 : ClassRegistry × ErrorRegistry)
    (h1 : parse_errors_txt d1 = .ok r1) (h2 : parse_errors_txt d2 = .ok r2) :
    fetch_errors [d1, d2] = .ok (mergeVersion (mergeVersion ([], []) r1) r2) := by
  have e := fetch_errors_snoc [d1] d2
  rw [show ([d1] ++ [d2] : List (List String)) = [d1, d2] from rfl] at e
  rw [e, fetch_errors_one d1 r1 h1]
  show (parse_errors_txt d2).map (mergeVersion (mergeVersion ([], []) r1)) = _
  rw [h2]
  rfl

/-! ### Claim C1: the hardcoded legacy injection -/

/-- C1 as stated is false on the code: the injection
errors["22"]["22020"] = "INVALID_LIMIT_VALUE" is executed BEFORE the
per-version fold inside the loop body, so with a single version whose
document defines error code 22020 under class 22 with label FOO, the
final registry maps ("22", "22020") to "FOO", not to the hardcoded
label. -/
theorem legacy_injection_counterexample :
    (fetch_errors [["Section: Class 22 - Data Exception",
        "22020    E    ERRCODE_FOO    foo"]]).map
      (fun r => getA2 r.2 "22" "22020") = .ok (some "FOO") ∧
    (Except.ok (some "FOO") : Except ParseError (Option String))
      ≠ .ok (some "INVALID_LIMIT_VALUE") := by
  constructor
  · rfl
  · decide

/-- C1 (amended): after merging a version sequence ending with a version
whose document parses to (c1, e1), the final ErrorRegistry always has an
entry for class "22", code "22020"; its value is "INVALID_LIMIT_VALUE"
whenever the last version does not itself define code 22020 under class
22, and the last version's own label otherwise, because the injection is
executed before each per-version fold. -/
theorem legacy_injection_amended (docs : List (List String)) (d : List String)
    (c1 : ClassRegistry) (e1 : ErrorRegistry)
    (hd : parse_errors_txt d = .ok (c1, e1))
    (acc : ClassRegistry × ErrorRegistry)
    (hacc : fetch_errors docs = .ok acc) :
    (getA2 e1 "22" "22020" = none →
        (fetch_errors (docs ++ [d])).map (fun r => getA2 r.2 "22" "22020")
          = .ok (some "INVALID_LIMIT_VALUE")) ∧
      (∀ l, getA2 e1 "22" "22020" = some l →
        (fetch_errors (docs ++ [d])).map (fun r => getA2 r.2 "22" "22020")
          = .ok (some l)) := by
  obtain ⟨-, hOut, hInner⟩ := parse_errors_txt_regInv d c1 e1 hd
  have hfe : fetch_errors (docs ++ [d]) = .ok (mergeVersion acc (c1, e1)) := by
    rw [fetch_errors_snoc, hacc]
    show (parse_errors_txt d).map (mergeVersion acc) = _
    rw [hd]
    rfl
  constructor
  · intro hnone
    rw [hfe]
    show Except.ok (getA2
        (mergeErrors (setErr acc.2 "22" "22020" "INVALID_LIMIT_VALUE") e1)
        "22" "22020")
      = (Except.ok (some "INVALID_LIMIT_VALUE") :
          Except ParseError (Option String))
    rw [getA2_mergeErrors_none e1 _ _ _ hOut hnone, getA2_setErr_self]
  · intro l hsome
    rw [hfe]
    show Except.ok (getA2
        (mergeErrors (setErr acc.2 "22" "22020" "INVALID_LIMIT_VALUE") e1)
        "22" "22020")
      = (Except.ok (some l) : Except ParseError (Option String))
    rw [getA2_mergeErrors_some e1 _ _ _ l hOut hInner hsome]

/-- Witness for the amended C1: a one-version sequence whose document
defines class 22 but not code 22020, so the injected pair is final. -/
theorem legacy_injection_amended_witness :
    (fetch_errors [["Section: Class 22 - Data Exception"]]).map
      (fun r => getA2 r.2 "22" "22020") = .ok (some "INVALID_LIMIT_VALUE") :=
  (legacy_injection_amended [] ["Section: Class 22 - Data Exception"]
    [("22", "Class 22 - Data Exception")] [] (by rfl) ([], []) (by rfl)).1
    (by rfl)

/-! ### Claim C2: later version wins on conflict -/

/-- C2: for two versions processed in order [d1, d2], if both define the
same error code under the same class code (with labels l1, l2) then the
merged ErrorRegistry holds l2, and if both define a label for the same
class code then the merged ClassRegistry holds the later label. -/
theorem merge_last_version_wins (d1 d2 : List String)
    (c1 : ClassRegistry) (e1 : ErrorRegistry)
    (c2 : ClassRegistry) (e2 : ErrorRegistry)
    (h1 : parse_errors_txt d1 = .ok (c1, e1))
    (h2 : parse_errors_txt d2 = .ok (c2, e2))
    (cls code l1 l2 cls' lab1 lab2 : String)
    (he1 : getA2 e1 cls code = some l1)
    (he2 : getA2 e2 cls code = some l2)
    (hc1 : getA c1 cls' = some lab1)
    (hc2 : getA c2 cls' = some lab2) :
    (fetch_errors [d1, d2]).map (fun r => getA2 r.2 cls code)
        = .ok (some l2) ∧
      (fetch_errors [d1, d2]).map (fun r => getA r.1 cls')
        = .ok (some lab2) := by
  obtain ⟨hc2n, hOut2, hInner2⟩ := parse_errors_txt_regInv d2 c2 e2 h2
  have hfe := fetch_errors_two d1 d2 (c1, e1) (c2, e2) h1 h2
  constructor
  · rw [hfe]
    show Except.ok (getA2
        (mergeErrors
          (setErr (mergeVersion ([], []) (c1, e1)).2 "22" "22020"
            "INVALID_LIMIT_VALUE") e2)
        cls code)
      = (Except.ok (some l2) : Except ParseError (Option String))
    rw [getA2_mergeErrors_some e2 _ _ _ l2 hOut2 hInner2 he2]
  · rw [hfe]
    show Except.ok (getA (updateA (mergeVersion ([], []) (c1, e1)).1 c2) cls')
      = (Except.ok (some lab2) : Except ParseError (Option String))
    rw [getA_updateA_of_nodup c2 _ _ _ hc2n hc2]

/-- Witness for C2: both versions define error 22001 under class 22 and a
label for class 22, with different values; the later version wins. -/
theorem merge_last_version_wins_witness :
    (fetch_errors [["Section: Class 22 - Data Exception",
        "22001 E ERRCODE_A v_one"],
      ["Section: Class 22 - Data Exception Two",
        "22001 E ERRCODE_B v_two"]]).map (fun r => getA2 r.2 "22" "22001")
      = .ok (some "V_TWO") ∧
    (fetch_errors [["Section: Class 22 - Data Exception",
        "22001 E ERRCODE_A v_one"],
      ["Section: Class 22 - Data Exception Two",
        "22001 E ERRCODE_B v_two"]]).map (fun r => getA r.1 "22")
      = .ok (some "Class 22 - Data Exception Two") :=
  merge_last_version_wins
    ["Section: Class 22 - Data Exception", "22001 E ERRCODE_A v_one"]
    ["Section: Class 22 - Data Exception Two", "22001 E ERRCODE_B v_two"]
    [("22", "Class 22 - Data Exception")] [("22", [("22001", "V_ONE")])]
    [("22", "Class 22 - Data Exception Two")] [("22", [("22001", "V_TWO")])]
    (by rfl) (by rfl)
    "22" "22001" "V_ONE" "V_TWO" "22" "Class 22 - Data Exception"
    "Class 22 - Data Exception Two"
    (by rfl) (by rfl) (by rfl) (by rfl)

/-! ### Claim C3: class reassignment leaves a stale duplicate -/

/-- C3 as stated is false on the code for the legacy pair: version one
defines code 22020 under class 22 with label AA, version two reassigns it
to class 33 with label BB.  The final registry does retain an entry for
22020 under class 22, but its label is "INVALID_LIMIT_VALUE" (the
injection re-overwrites it while merging version two), not the earlier
label "AA" that the claim requires. -/
theorem stale_duplicate_counterexample :
    (fetch_errors [["Section: Class 22 - X", "22020 E ERRCODE_A aa"],
        ["Section: Class 33 - Y", "22020 E ERRCODE_B bb"]]).map
      (fun r => (getA2 r.2 "22" "22020", getA2 r.2 "33" "22020"))
      = .ok (some "INVALID_LIMIT_VALUE", some "BB") ∧
    (some "INVALID_LIMIT_VALUE" : Option String) ≠ some "AA" := by
  constructor
  · rfl
  · decide

/-- C3 (amended): if version one defines a code under class A with label
l1 and version two defines the same code under a different class B with
label l2 (and does not define it under A), the merged registry contains
the code under B with l2 and a stale duplicate under A.  The stale
entry's label is l1 except when (A, code) is the legacy pair
("22", "22020"), which the injection re-overwrites; that case is excluded
here and settled by the counterexample. -/
theorem stale_duplicate_amended (d1 d2 : List String)
    (c1 : ClassRegistry) (e1 : ErrorRegistry)
    (c2 : ClassRegistry) (e2 : ErrorRegistry)
    (h1 : parse_errors_txt d1 = .ok (c1, e1))
    (h2 : parse_errors_txt d2 = .ok (c2, e2))
    (A B code l1 l2 : String) (hAB : A ≠ B)
    (hA1 : getA2 e1 A code = some l1)
    (hB2 : getA2 e2 B code = some l2)
    (hA2 : getA2 e2 A code = none)
    (hleg : ¬ (A = "22" ∧ code = "22020")) :
    (fetch_errors [d1, d2]).map
        (fun r => (getA2 r.2 A code, getA2 r.2 B code))
      = .ok (some l1, some l2) := by
  obtain ⟨-, hOut1, hInner1⟩ := parse_errors_txt_regInv d1 c1 e1 h1
  obtain ⟨-, hOut2, hInner2⟩ := parse_errors_txt_regInv d2 c2 e2 h2
  have hfe := fetch_errors_two d1 d2 (c1, e1) (c2, e2) h1 h2
  rw [hfe]
  show Except.ok
      ((getA2 (mergeErrors
          (setErr (mergeErrors (setErr ([] : ErrorRegistry) "22" "22020"
              "INVALID_LIMIT_VALUE") e1) "22" "22020" "INVALID_LIMIT_VALUE")
          e2) A code),
        (getA2 (mergeErrors
          (setErr (mergeErrors (setErr ([] : ErrorRegistry) "22" "22020"
              "INVALID_LIMIT_VALUE") e1) "22" "22020" "INVALID_LIMIT_VALUE")
          e2) B code))
    = (Except.ok (some l1, some l2) :
        Except ParseError (Option String × Option String))
  have hA3 : getA2 (mergeErrors (setErr ([] : ErrorRegistry) "22" "22020"
      "INVALID_LIMIT_VALUE") e1) A code = some l1 :=
    getA2_mergeErrors_some e1 _ _ _ l1 hOut1 hInner1 hA1
  have hA4 : getA2 (setErr (mergeErrors (setErr ([] : ErrorRegistry) "22"
      "22020" "INVALID_LIMIT_VALUE") e1) "22" "22020" "INVALID_LIMIT_VALUE")
      A code = some l1 := by
    rw [getA2_setErr_ne _ _ _ _ _ _ hleg]
    exact hA3
  rw [getA2_mergeErrors_none e2 _ _ _ hOut2 hA2, hA4,
    getA2_mergeErrors_some e2 _ _ _ l2 hOut2 hInner2 hB2]

/-- Witness for the amended C3: code 22001 moves from class 22 (label AA)
to class 33 (label BB); the stale duplicate keeps the earlier label. -/
theorem stale_duplicate_amended_witness :
    (fetch_errors [["Section: Class 22 - X", "22001 E ERRCODE_A aa"],
        ["Section: Class 33 - Y", "22001 E ERRCODE_B bb"]]).map
      (fun r => (getA2 r.2 "22" "22001", getA2 r.2 "33" "22001"))
      = .ok (some "AA", some "BB") :=
  stale_duplicate_amended
    ["Section: Class 22 - X", "22001 E ERRCODE_A aa"]
    ["Section: Class 33 - Y", "22001 E ERRCODE_B bb"]
    [("22", "Class 22 - X")] [("22", [("22001", "AA")])]
    [("33", "Class 33 - Y")] [("33", [("22001", "BB")])]
    (by rfl) (by rfl)
    "22" "33" "22001" "AA" "BB" (by decide)
    (by rfl) (by rfl) (by rfl) (by decide)

/-! ### The two line patterns are mutually exclusive -/

theorem matchSection_eq_none_of_matchError {cs : List Char}
    {t : String × String × Option String} (h : matchError cs = some t) :
    matchSection cs = none := by
  cases hs : matchSection cs with
  | none => rfl
  | some p =>
    exfalso
    unfold matchSection at hs
    by_cases hp : "Section: Class ".data.isPrefixOf cs
    · obtain ⟨t2, ht⟩ := List.isPrefixOf_iff_prefix.mp hp
      have hnone : matchError ("Section: Class ".data ++ t2) = none := rfl
      rw [← ht, hnone] at h
      exact Option.noConfusion h
    · rw [if_neg (by simpa using hp)] at hs
      exact Option.noConfusion hs

/-! ### Claim C4: error-entry lines yield exactly one registry pair -/

/-- C4: with the class local bound to cls, a line whose stripped text
matches the error-entry pattern and carries a symbolic-spec token makes
the loop body set exactly the one entry (cls, code) to the upper-cased
spec token, leaving every other entry and the class registry unchanged;
a matching line without a spec token leaves the whole state unchanged. -/
theorem error_entry_parse (line : String) (st : ParseState)
    (cls code mac : String) (hcur : st.curClass = some cls) :
    (∀ spc, matchError (stripLine line).data = some (code, mac, some spc) →
      processLine st line
          = .ok { st with errors := setErr st.errors cls code (pyUpper spc) } ∧
        getA2 (setErr st.errors cls code (pyUpper spc)) cls code
          = some (pyUpper spc) ∧
        ∀ c k, ¬ (c = cls ∧ k = code) →
          getA2 (setErr st.errors cls code (pyUpper spc)) c k
            = getA2 st.errors c k) ∧
    (matchError (stripLine line).data = some (code, mac, none) →
      processLine st line = .ok st) := by
  constructor
  · intro spc hm
    have hne : stripLine line ≠ "" := by
      intro e
      rw [e] at hm
      have hz : matchError ("" : String).data = none := rfl
      rw [hz] at hm
      exact Option.noConfusion hm
    have hsec := matchSection_eq_none_of_matchError hm
    refine ⟨?_, getA2_setErr_self _ _ _ _,
      fun c k hck => getA2_setErr_ne _ _ _ _ _ _ hck⟩
    show processStripped st (stripLine line) = _
    unfold processStripped
    rw [if_neg hne, hsec, hm, hcur]
  · intro hm
    have hne : stripLine line ≠ "" := by
      intro e
      rw [e] at hm
      have hz : matchError ("" : String).data = none := rfl
      rw [hz] at hm
      exact Option.noConfusion hm
    have hsec := matchSection_eq_none_of_matchError hm
    show processStripped st (stripLine line) = _
    unfold processStripped
    rw [if_neg hne, hsec, hm]

/-- Witness for C4 at a concrete line with and without a spec token. -/
theorem error_entry_parse_witness :
    processLine ⟨[], [], some "22"⟩ "22003 W ERRCODE_X some_label"
        = .ok ⟨[], [("22", [("22003", "SOME_LABEL")])], some "22"⟩ ∧
      processLine ⟨[], [], some "22"⟩ "22004 S ERRCODE_Y"
        = .ok ⟨[], [], some "22"⟩ :=
  ⟨((error_entry_parse "22003 W ERRCODE_X some_label" ⟨[], [], some "22"⟩
      "22" "22003" "X" (by rfl)).1 "some_label" (by rfl)).1,
    (error_entry_parse "22004 S ERRCODE_Y" ⟨[], [], some "22"⟩
      "22" "22004" "Y" (by rfl)).2 (by rfl)⟩

/-! ### Claim C5: malformed lines abort the whole run -/

/-- C5: a line that is non-blank after comment stripping and matches
neither pattern makes the loop body fail with the distinct
unexpected-line error; parsing of any document reaching that line fails
with that error, and the whole run aborts with it before producing any
output lines, provided the preceding documents and lines were accepted. -/
theorem grammar_violation_aborts (line l : String)
    (hl : stripLine line = l) (hne : l ≠ "")
    (hsec : matchSection l.data = none) (herr : matchError l.data = none) :
    (∀ st, processLine st line = .error (.unexpectedLine l)) ∧
    (∀ pre suf st1, List.foldlM processLine initState pre = .ok st1 →
      parse_errors_txt (pre ++ line :: suf) = .error (.unexpectedLine l)) ∧
    (∀ file fs docs1 docs2 pre suf st1 acc,
      read_base_file file = some fs →
      fetch_errors docs1 = .ok acc →
      List.foldlM processLine initState pre = .ok st1 →
      runMain file (docs1 ++ (pre ++ line :: suf) :: docs2)
        = .error (.parseFailure (.unexpectedLine l))) := by
  have hstep : ∀ st, processLine st line = .error (.unexpectedLine l) := by
    intro st
    show processStripped st (stripLine line) = _
    rw [hl]
    unfold processStripped
    rw [if_neg hne, hsec, herr]
  have hparse : ∀ pre suf st1,
      List.foldlM processLine initState pre = .ok st1 →
      parse_errors_txt (pre ++ line :: suf) = .error (.unexpectedLine l) := by
    intro pre suf st1 hfold
    unfold parse_errors_txt
    rw [List.foldlM_append, hfold]
    show (List.foldlM processLine st1 (line :: suf)).map
        (fun st => (st.classes, st.errors)) = _
    rw [List.foldlM_cons, hstep st1]
    rfl
  refine ⟨hstep, hparse, ?_⟩
  intro file fs docs1 docs2 pre suf st1 acc hread hacc hfold
  have hfetch : fetch_errors (docs1 ++ (pre ++ line :: suf) :: docs2)
      = .error (.unexpectedLine l) := by
    unfold fetch_errors
    rw [List.foldlM_append]
    rw [show List.foldlM
        (fun a doc => (parse_errors_txt doc).map (mergeVersion a))
        ([], []) docs1 = Except.ok acc from hacc]
    show List.foldlM (fun a doc => (parse_errors_txt doc).map (mergeVersion a))
        acc ((pre ++ line :: suf) :: docs2) = _
    rw [List.foldlM_cons, hparse pre suf st1 hfold]
    rfl
  unfold runMain
  rw [hread, hfetch]

/-- Witness for C5 at a concrete malformed line and a concrete run. -/
theorem grammar_violation_aborts_witness :
    processLine initState "bogus!" = .error (.unexpectedLine "bogus!") ∧
      parse_errors_txt ["bogus!"] = .error (.unexpectedLine "bogus!") ∧
      runMain ["# autogenerated"] [["bogus!"]]
        = .error (.parseFailure (.unexpectedLine "bogus!")) :=
  ⟨(grammar_violation_aborts "bogus!" "bogus!" (by rfl) (by decide)
      (by rfl) (by rfl)).1 initState,
    (grammar_violation_aborts "bogus!" "bogus!" (by rfl) (by decide)
      (by rfl) (by rfl)).2.1 [] [] initState (by rfl),
    (grammar_violation_aborts "bogus!" "bogus!" (by rfl) (by decide)
      (by rfl) (by rfl)).2.2 ["# autogenerated"] ["# autogenerated"]
      [] [] [] [] initState ([], []) (by rfl) (by rfl) (by rfl)⟩

/-! ### Claim C10: an error entry before any class header -/

/-- C10: when the first classified line of a document is an error entry
carrying a spec token, before any Section header, the parse fails with
the unbound-class-local error, which is distinct from the
grammar-violation error raised for malformed lines. -/
theorem entry_before_header_unbound (pre : List String) (line : String)
    (suf : List String) (code mac spc : String)
    (hpre : ∀ p ∈ pre, stripLine p = "")
    (hm : matchError (stripLine line).data = some (code, mac, some spc)) :
    parse_errors_txt (pre ++ line :: suf) = .error .unboundClass ∧
      ∀ s, parse_errors_txt (pre ++ line :: suf)
        ≠ .error (.unexpectedLine s) := by
  have hblank : ∀ (lines : List String) (st : ParseState),
      (∀ p ∈ lines, stripLine p = "") →
      List.foldlM processLine st lines = .ok st := by
    intro lines st h
    induction lines with
    | nil => rfl
    | cons p rest ih =>
      rw [List.foldlM_cons]
      have hp : processLine st p = .ok st := by
        show processStripped st (stripLine p) = .ok st
        rw [h p (List.mem_cons_self _ _)]
        rfl
      rw [hp]
      exact ih (fun q hq => h q (List.mem_cons_of_mem _ hq))
  have hne : stripLine line ≠ "" := by
    intro e
    rw [e] at hm
    have hz : matchError ("" : String).data = none := rfl
    rw [hz] at hm
    exact Option.noConfusion hm
  have hsec := matchSection_eq_none_of_matchError hm
  have hstep : processLine initState line = .error .unboundClass := by
    show processStripped initState (stripLine line) = _
    unfold processStripped
    rw [if_neg hne, hsec, hm]
    rfl
  have hres : parse_errors_txt (pre ++ line :: suf) = .error .unboundClass := by
    unfold parse_errors_txt
    rw [List.foldlM_append, hblank pre initState hpre]
    show (List.foldlM processLine initState (line :: suf)).map
        (fun st => (st.classes, st.errors)) = _
    rw [List.foldlM_cons, hstep]
    rfl
  refine ⟨hres, ?_⟩
  intro s hcontra
  rw [hres] at hcontra
  injection hcontra with hcontra
  exact ParseError.noConfusion hcontra

/-- Witness for C10: a comment-only line, then an error entry with a spec
token and no preceding Section header. -/
theorem entry_before_header_unbound_witness :
    parse_errors_txt ["# only a comment", "22020 E ERRCODE_X yy", "junk"]
      = .error .unboundClass :=
  (entry_before_header_unbound ["# only a comment"] "22020 E ERRCODE_X yy"
    ["junk"] "22020" "X" "yy" (by decide) (by rfl)).1

/-! ### Claim C6: the sentinel line of the target artifact -/

/-- C6: if no line of the target artifact starts with the sentinel marker
"# autogenerated", the splitter fails and the whole run fails with the
sentinel-missing error whatever the fetched documents are — before any
fetch or parse work can matter — and no output is produced, leaving the
artifact unchanged; if a sentinel line is present, the splitter returns
exactly the lines up to and including the first one. -/
theorem sentinel_splitter :
    (∀ file : List String,
      (∀ lin ∈ file, pyStartsWith lin "# autogenerated" = false) →
      read_base_file file = none ∧
        ∀ docs, runMain file docs = .error .sentinelMissing) ∧
    (∀ (pre : List String) (s : String) (suf : List String),
      pyStartsWith s "# autogenerated" = true →
      (∀ lin ∈ pre, pyStartsWith lin "# autogenerated" = false) →
      read_base_file (pre ++ s :: suf) = some (pre ++ [s])) := by
  constructor
  · intro file hno
    have hnone : read_base_file file = none := by
      induction file with
      | nil => rfl
      | cons p rest ih =>
        unfold read_base_file
        rw [hno p (List.mem_cons_self _ _)]
        rw [ih (fun q hq => hno q (List.mem_cons_of_mem _ hq))]
        rfl
    refine ⟨hnone, fun docs => ?_⟩
    unfold runMain
    rw [hnone]
  · intro pre s suf hs hno
    induction pre with
    | nil =>
      show read_base_file (s :: suf) = some [s]
      unfold read_base_file
      rw [hs]
      rfl
    | cons p rest ih =>
      show read_base_file (p :: (rest ++ s :: suf)) = _
      unfold read_base_file
      rw [hno p (List.mem_cons_self _ _)]
      rw [ih (fun q hq => hno q (List.mem_cons_of_mem _ hq))]
      rfl

/-- Witness for C6: a sentinel-free artifact fails for any documents, and
a sentinel-bearing artifact is split after the first sentinel line. -/
theorem sentinel_splitter_witness :
    read_base_file ["import x", "FOO = 1"] = none ∧
      runMain ["import x", "FOO = 1"] [["junk"]] = .error .sentinelMissing ∧
      read_base_file ["import x", "# autogenerated below", "OLD = 2"]
        = some ["import x", "# autogenerated below"] :=
  ⟨(sentinel_splitter.1 ["import x", "FOO = 1"] (by decide)).1,
    (sentinel_splitter.1 ["import x", "FOO = 1"] (by decide)).2 [["junk"]],
    sentinel_splitter.2 ["import x"] "# autogenerated below" ["OLD = 2"]
      (by rfl) (by decide)⟩

/-! ### Claim C7: layout of the generated block -/

/-- C7: on registries without duplicate keys — all registries the merge
can produce — the generated block is exactly the spec layout: a blank
line, the "# Error classes" header, the class-constant declarations in
ascending class-code order, then per class code in ascending order a
blank line, a comment with the full class label, and the declarations of
that class's error codes in ascending error-code order, each binding the
symbolic label with no extra prefix to the code string. -/
theorem generator_layout (classes : ClassRegistry) (errors : ErrorRegistry)
    (hc : (classes.map Prod.fst).Nodup)
    (he : ∀ p ∈ errors, (p.2.map Prod.fst).Nodup) :
    generate_module_data classes errors = generateSpec classes errors := by
  have hinner : ∀ p : String × String,
      sortItems ((getA errors p.1).getD [])
        = sortByKey ((getA errors p.1).getD []) := by
    intro p
    cases hg : getA errors p.1 with
    | none => rfl
    | some m =>
      simp only [Option.getD]
      exact sortItems_eq_sortByKey m (he (p.1, m) (getA_mem _ _ _ hg))
  unfold generate_module_data generateSpec
  rw [sortItems_eq_sortByKey classes hc]
  simp only [hinner]

/-- Witness for C7 at concrete registries (deliberately unsorted). -/
theorem generator_layout_witness :
    generate_module_data
        [("23", "Class 23 - B"), ("22", "Class 22 - A")]
        [("22", [("22002", "Y"), ("22001", "X")])]
      = generateSpec
        [("23", "Class 23 - B"), ("22", "Class 22 - A")]
        [("22", [("22002", "Y"), ("22001", "X")])] :=
  generator_layout
    [("23", "Class 23 - B"), ("22", "Class 22 - A")]
    [("22", [("22002", "Y"), ("22001", "X")])]
    (by decide) (by decide)

/-! ### Claim C8: derivation of the class-constant identifier -/

/-- C8 as stated is false on the code: the code takes
clslabel.split(" - ")[1], the segment BETWEEN the first and second
occurrence of the separator, while the claim takes all text following the
first occurrence.  On the label "Class 99 - foo - bar" the generated
declaration uses identifier CLASS_FOO, not the claim's CLASS_FOO_-_BAR. -/
theorem class_ident_counterexample :
    classIdent "Class 99 - foo - bar" = "FOO" ∧
      specClassIdent "Class 99 - foo - bar" = "FOO_-_BAR" ∧
      (generate_module_data [("99", "Class 99 - foo - bar")] [])[2]?
        = some "CLASS_FOO = '99'" ∧
      "CLASS_FOO = '99'"
        ≠ "CLASS_" ++ specClassIdent "Class 99 - foo - bar" ++ " = "
            ++ pyRepr "99" := by
  refine ⟨rfl, rfl, rfl, ?_⟩
  decide

/-- C8 (amended): for a label in which the separator " - " occurs exactly
once — as in every real class label — the generated identifier does equal
the spec derivation: text after the separator, truncated at the first
parenthesis, trimmed, spaces and slashes replaced by underscores,
upper-cased.  Labels with further occurrences keep only the text before
the second occurrence. -/
theorem class_ident_amended (clslabel a b : String)
    (h : pySplit clslabel " - " = [a, b]) :
    classIdent clslabel = specClassIdent clslabel ∧
      classIdent clslabel
        = pyUpper (pyReplace (pyReplace
            (pyStrip ((pySplit b "(").getD 0 "")) " " "_") "/" "_") := by
  unfold classIdent specClassIdent
  rw [h]
  exact ⟨rfl, rfl⟩

/-- Witness for the amended C8 at a concrete one-separator label. -/
theorem class_ident_amended_witness :
    classIdent "Class 22 - Data exception (demo)"
        = specClassIdent "Class 22 - Data exception (demo)" ∧
      classIdent "Class 22 - Data exception (demo)" = "DATA_EXCEPTION" :=
  ⟨(class_ident_amended "Class 22 - Data exception (demo)"
      "Class 22" "Data exception (demo)" (by rfl)).1, rfl⟩

/-! ### Claim C9: the generator is deterministic and order-independent -/

/-- C9: the generated line sequence depends only on the contents of the
final registries, not on the order in which the merge inserted them: for
class registries that are permutations of each other and error registries
with pointwise permuted per-class code maps, the outputs are identical
(in particular, generating twice from identical registries is trivially
byte-identical). -/
theorem generator_deterministic (c1 c2 : ClassRegistry)
    (e1 e2 : ErrorRegistry) (hc : c1.Perm c2)
    (he : ∀ cls, ((getA e1 cls).getD []).Perm ((getA e2 cls).getD [])) :
    generate_module_data c1 e1 = generate_module_data c2 e2 := by
  have hcs : sortItems c1 = sortItems c2 := sortItems_eq_of_perm hc
  have hinner : ∀ p : String × String,
      sortItems ((getA e1 p.1).getD []) = sortItems ((getA e2 p.1).getD []) :=
    fun p => sortItems_eq_of_perm (he p.1)
  unfold generate_module_data
  rw [hcs]
  simp only [hinner]

/-- Witness for C9: same registry contents inserted in different orders
generate identical output. -/
theorem generator_deterministic_witness :
    generate_module_data [("23", "Class 23 - B"), ("22", "Class 22 - A")]
        [("22", [("22001", "X")])]
      = generate_module_data [("22", "Class 22 - A"), ("23", "Class 23 - B")]
        [("22", [("22001", "X")])] :=
  generator_deterministic
    [("23", "Class 23 - B"), ("22", "Class 22 - A")]
    [("22", "Class 22 - A"), ("23", "Class 23 - B")]
    [("22", [("22001", "X")])] [("22", [("22001", "X")])]
    (by decide) (fun cls => List.Perm.refl _)

end MakeErrorcodes
